import Mathlib

/-!
Verification development for the Celestial-Chronicles path engine and schema
validation engine.

The definitions below are a shallow embedding of the Python modules
`utils/fields/access.py` (Parse, HasField, GetField, SetField),
`utils/fields/miscellaneous.py` (FlattenFields, Dict),
`utils/graphs.py` (Toposort, BuildReverseGraph, GetAllDescendants) and
`entities/validator.py` (YamlEntityValidator.ValidateMandatoryFields,
ValidateOptionalFields, ValidateAnyOfFields, ValidateSchema, Validate).

Modelling conventions:
- Python data trees (as loaded from YAML) are modelled by `Value`: keyed
  mappings with stable insertion order become association lists, sequences
  become lists, scalars become `int` / `str`, and Python `None` becomes
  `null`.  An entity object is represented by the mapping of its public
  attributes; attribute lookup on such an object behaves like key lookup on
  a mapping (the duck typing the code relies on), and data nodes other than
  mappings expose no named members.
- Python exceptions are modelled by the `PyResult` monad: a raised
  exception is `PyResult.exn`, mutation is modelled by returning the
  updated record.  Python `set` objects of strings become `Finset String`.
- Error message strings follow the source format strings, except that the
  quote characters Python `repr` adds around embedded values are dropped.
- Loops with data-dependent iteration counts (Kahn queue, BFS) take an
  explicit fuel argument that dominates the number of iterations.
-/

namespace CC

/-- Python exception taxonomy used by the embedded functions. -/
inductive PyErr where
  | keyError : String → PyErr
  | attrError : String → PyErr
  | indexError : String → PyErr
  | typeError : String → PyErr
  | valueError : String → PyErr
deriving DecidableEq, Repr

/-- Result of running a piece of Python code: a value or a raised exception. -/
inductive PyResult (α : Type) where
  | ok : α → PyResult α
  | exn : PyErr → PyResult α
deriving DecidableEq, Repr

/-- Sequencing of Python code: an exception propagates. -/
def pyBind : PyResult α → (α → PyResult β) → PyResult β
  | .ok a, f => f a
  | .exn e, _ => .exn e

instance : Monad PyResult where
  pure := .ok
  bind := pyBind

/-- A Python data tree: nested dicts (insertion ordered), lists, scalars, None. -/
inductive Value where
  | dict : List (String × Value) → Value
  | list : List Value → Value
  | int : Int → Value
  | str : String → Value
  | null : Value

/-- The Python type name of a node, as printed in error messages. -/
def typeName : Value → String
  | .dict _ => "dict"
  | .list _ => "list"
  | .int _ => "int"
  | .str _ => "str"
  | .null => "NoneType"

/-- Python `x is None` on a record value. -/
def isNull : Value → Bool
  | .null => true
  | _ => false

/-- Association list lookup; models Python dict key lookup. -/
def alistGet : List (String × α) → String → Option α
  | [], _ => none
  | (k, v) :: rest, key => if k = key then some v else alistGet rest key

/-- Dict entry lookup on a record node. -/
def dictGet (d : List (String × Value)) (key : String) : Option Value :=
  alistGet d key

/-- Dict assignment `d[key] = v`: replaces in place, appends when absent. -/
def dictSet : List (String × Value) → String → Value → List (String × Value)
  | [], key, v => [(key, v)]
  | (k, w) :: rest, key, v =>
      if k = key then (k, v) :: rest else (k, w) :: dictSet rest key v

/-- The keys of a dict node, in insertion order. -/
def dictKeys (d : List (String × Value)) : List String :=
  d.map Prod.fst

/-- Membership test `key in d`. -/
def dictHas (d : List (String × Value)) (key : String) : Bool :=
  (dictGet d key).isSome

/-- Python list indexing `l[i]`, including negative indices; `none` is IndexError. -/
def pyListGet (l : List Value) (i : Int) : Option Value :=
  if 0 ≤ i then l.get? i.toNat
  else
    let j : Int := (l.length : Int) + i
    if 0 ≤ j then l.get? j.toNat else none

/-- Python list element assignment `l[i] = v` (callers index-check first). -/
def pyListSet (l : List Value) (i : Int) (v : Value) : List Value :=
  if 0 ≤ i then l.set i.toNat v
  else l.set ((l.length : Int) + i).toNat v

/-- Digit-run evaluator for `pyInt`; `none` on a non-digit character. -/
def digitsVal : List Char → Nat → Option Nat
  | [], acc => some acc
  | c :: rest, acc =>
      if c.isDigit then digitsVal rest (acc * 10 + (c.toNat - 48)) else none

/-- Python `int(s)` on an index string; `none` is ValueError. -/
def pyInt (s : String) : Option Int :=
  match s.toList with
  | [] => none
  | '-' :: rest =>
      if rest = [] then none
      else (digitsVal rest 0).map (fun n => -(n : Int))
  | '+' :: rest =>
      if rest = [] then none
      else (digitsVal rest 0).map (fun n => (n : Int))
  | cs => (digitsVal cs 0).map (fun n => (n : Int))

/-- Worker of `pySplit`, accumulating the current piece in reverse. -/
def splitCharAux (sep : Char) : List Char → List Char → List String
  | [], acc => [String.mk acc.reverse]
  | c :: rest, acc =>
      if c = sep then String.mk acc.reverse :: splitCharAux sep rest []
      else splitCharAux sep rest (c :: acc)

/-- Python `s.split(sep)` for a one-character separator; never empty. -/
def pySplit (s : String) (sep : Char) : List String :=
  splitCharAux sep s.toList []

/-- Python `s.startswith(\x22_\x22)` on an attribute name. -/
def startsUnderscore (s : String) : Bool :=
  match s.toList with
  | c :: _ => c = '_'
  | [] => false

/-- Python `str` of a list of strings, with the quotes of repr dropped. -/
def pyRepr (xs : List String) : String :=
  "[" ++ String.intercalate ", " xs ++ "]"

/-!  ## Parse (utils/fields/access.py)

`Parse` takes one dot-separated path segment; the key is the maximal
leading run of characters other than brackets (regex `^([^\[\]]+)`), then
every bracketed run with non-empty content (regex `\[([^]]+)]`) becomes one
index group, split at the bar character.  -/

/-- Left-to-right scan for the bracketed groups `re.findall` extracts:
on an opening bracket start capturing; a closing bracket emits a non-empty
capture and a match never contains a closing bracket. -/
def scanGroups : List Char → Option (List Char) → List String
  | [], _ => []
  | c :: rest, none =>
      if c = '[' then scanGroups rest (some []) else scanGroups rest none
  | c :: rest, some buf =>
      if c = ']' then
        if buf = [] then scanGroups rest none
        else String.mk buf :: scanGroups rest none
      else scanGroups rest (some (buf ++ [c]))

/-- Splits a field path segment into a base key and a list of index groups. -/
def Parse (part : String) : PyResult (String × List (List String)) :=
  let cs := part.toList
  let keyChars := cs.takeWhile (fun c => c ≠ '[' && c ≠ ']')
  if keyChars = [] then
    .exn (.valueError ("Invalid field syntax: " ++ part))
  else
    let key := String.mk keyChars
    let rest := cs.drop keyChars.length
    .ok (key, (scanGroups rest none).map (fun g => pySplit g '|'))

/-!  ## HasField (utils/fields/access.py)  -/

/-- The label `[root]` the code substitutes for an empty current field. -/
def rootLabel (currentField : String) : String :=
  if currentField = "" then "[root]" else currentField

/-- Error text of `handle_dict` for a missing dict key. -/
def msgMissingKey (key currentField nextField : String) : String :=
  "Missing key " ++ key ++ " in dict at " ++ rootLabel currentField ++
    ". Full path attempted: " ++ nextField

/-- Error text for a missing key or attribute on a non-dict node. -/
def msgMissingAttr (key tn currentField nextField : String) : String :=
  "Missing key or attribute " ++ key ++ " in object of type " ++ tn ++
    " at " ++ rootLabel currentField ++ ". Full path attempted: " ++ nextField

/-- Error text of `handle_list_indices` for a group that is not a single selector. -/
def msgBadListGroup (g : List String) (nextField : String) : String :=
  "Invalid index group " ++ pyRepr g ++ " for list at " ++ nextField

/-- Error text of `handle_list_indices` for an out-of-range or non-numeric index. -/
def msgIndexRange (index nextField : String) (n : Nat) : String :=
  "Index " ++ index ++ " out of range for list at " ++ nextField ++
    ". List length: " ++ toString n

/-- Error text of `handle_dict_indices` when some requested keys are absent. -/
def msgExpectedKeys (g : List String) (nextField : String) (keys : List String) : String :=
  "Expected dict keys " ++ pyRepr g ++ " at " ++ nextField ++ ", but found " ++ pyRepr keys

/-- Error text for applying an index group to a scalar (source formatting kept). -/
def msgExpectedContainer (nextField tn : String) : String :=
  "Expected container (list/dict) at " ++ nextField ++ tn

/-- `handle_list_indices`: one index group applied to a sequence node. -/
def handleListIndices (l : List Value) (g : List String) (nextField : String) :
    Finset String × Finset String × List (Value × String) :=
  match g with
  | [index] =>
      if index = "*" then
        let branches := l.enum.map
          (fun p => (p.2, nextField ++ "[" ++ toString p.1 ++ "]"))
        (branches.foldl (fun s b => insert b.2 s) ∅, ∅, branches)
      else
        match pyInt index with
        | some i =>
            match pyListGet l i with
            | some item =>
                let lab := nextField ++ "[" ++ index ++ "]"
                ({lab}, ∅, [(item, lab)])
            | none => (∅, {msgIndexRange index nextField l.length}, [])
        | none => (∅, {msgIndexRange index nextField l.length}, [])
  | _ => (∅, {msgBadListGroup g nextField}, [])

/-- `handle_dict_indices`: one index group applied to a mapping node. -/
def handleDictIndices (d : List (String × Value)) (g : List String) (nextField : String) :
    Finset String × Finset String × List (Value × String) :=
  if g.contains "*" then
    let branches := d.map (fun kv => (kv.2, nextField ++ "." ++ kv.1))
    (branches.foldl (fun s b => insert b.2 s) ∅, ∅, branches)
  else
    if (g.filter (fun k => ¬ (dictHas d k))).isEmpty then
      let branches := g.map
        (fun k => ((dictGet d k).getD .null, nextField ++ "." ++ k))
      (branches.foldl (fun s b => insert b.2 s) ∅, ∅, branches)
    else
      (∅, {msgExpectedKeys g nextField (dictKeys d)}, [])

/-- One pass of the `for index_group in indices` loop body over every live branch. -/
def stepGroup (st : Finset String × Finset String × List (Value × String))
    (g : List String) : Finset String × Finset String × List (Value × String) :=
  st.2.2.foldl
    (fun acc br =>
      match br.1 with
      | .list l =>
          let r := handleListIndices l g br.2
          (acc.1 ∪ r.1, acc.2.1 ∪ r.2.1, acc.2.2 ++ r.2.2)
      | .dict d =>
          let r := handleDictIndices d g br.2
          (acc.1 ∪ r.1, acc.2.1 ∪ r.2.1, acc.2.2 ++ r.2.2)
      | v => (acc.1, insert (msgExpectedContainer br.2 (typeName v)) acc.2.1, acc.2.2))
    (st.1, st.2.1, [])

/-- The full `for index_group in indices` loop, starting from one branch. -/
def runGroups (v : Value) (nextField : String) (groups : List (List String)) :
    Finset String × Finset String × List (Value × String) :=
  groups.foldl stepGroup (∅, ∅, [(v, nextField)])

/-- True when the remainder string the code builds from these segments is
falsy, i.e. the `if rest:` guard skips recursion. -/
def restIsEmpty : List String → Bool
  | [] => true
  | [s] => s = ""
  | _ => false

/-- Recursive core of `HasField`, on the dot-split segments; the fuel equals
the number of remaining segments at every call. -/
def hasAux : Nat → Value → List String → String → PyResult (Finset String × Finset String)
  | _, _, [], _ => .ok (∅, ∅)
  | 0, _, _ :: _, _ => .ok (∅, ∅)
  | f + 1, obj, part :: tail, currentField =>
    match Parse part with
    | .exn e => .exn e
    | .ok (key, indices) =>
      let nextField := (if currentField = "" then "" else currentField ++ ".") ++ key
      match obj with
      | .dict d =>
        match dictGet d key with
        | none => .ok (∅, {msgMissingKey key currentField nextField})
        | some current =>
          if indices.isEmpty then
            if restIsEmpty tail then .ok ({nextField}, ∅)
            else
              match hasAux f current tail nextField with
              | .exn e => .exn e
              | .ok (sf, se) => .ok (insert nextField sf, se)
          else
            let r := runGroups current nextField indices
            if restIsEmpty tail then .ok (insert nextField r.1, r.2.1)
            else
              r.2.2.foldl
                (fun acc br =>
                  match acc with
                  | .exn e => .exn e
                  | .ok (af, ae) =>
                    match hasAux f br.1 tail br.2 with
                    | .exn e => .exn e
                    | .ok (sf, se) => .ok (af ∪ sf, ae ∪ se))
                (.ok (insert nextField r.1, r.2.1))
      | _ =>
        .ok (∅, {msgMissingAttr key (typeName obj) currentField nextField})

/-- `HasField`: diagnostic existence check returning found labels and errors.
The only exception it can raise is the ValueError of `Parse`. -/
def HasField (obj : Value) (fieldPath : String) : PyResult (Finset String × Finset String) :=
  if fieldPath = "" then .ok (∅, ∅)
  else
    let parts := pySplit fieldPath '.'
    hasAux parts.length obj parts ""

/-!  ## GetField (utils/fields/access.py)  -/

/-- Recursive core of `GetField` over the dot-split segments.  Note the
source returns inside the first iteration of its loop over index groups, so
only the first group of a segment is ever applied. -/
def getAux : Nat → Value → List String → PyResult Value
  | _, current, [] => .ok current
  | 0, current, _ :: _ => .ok current
  | f + 1, current, part :: rest =>
    match Parse part with
    | .exn e => .exn e
    | .ok (key, indexGroups) =>
      match current with
      | .dict d =>
        match dictGet d key with
        | none => .exn (.keyError ("Key " ++ key ++ " not found in dict"))
        | some cur =>
          match indexGroups with
          | [] => if rest.isEmpty then .ok cur else getAux f cur rest
          | g :: _ =>
            match cur with
            | .list l =>
                if g = ["*"] then
                  match l.mapM (fun item => getAux f item rest) with
                  | .ok vs => .ok (.list vs)
                  | .exn e => .exn e
                else
                  match g.mapM (fun idx =>
                      match pyInt idx with
                      | none => PyResult.exn (.valueError
                          ("invalid literal for int() with base 10: " ++ idx))
                      | some i =>
                        match pyListGet l i with
                        | none => PyResult.exn (.indexError "list index out of range")
                        | some item => getAux f item rest) with
                  | .ok vs => .ok (.list vs)
                  | .exn e => .exn e
            | .dict d2 =>
                if g = ["*"] then
                  match (d2.map Prod.snd).mapM (fun v => getAux f v rest) with
                  | .ok vs => .ok (.list vs)
                  | .exn e => .exn e
                else
                  match g.mapM (fun k =>
                      match dictGet d2 k with
                      | none => PyResult.exn (.keyError k)
                      | some v => getAux f v rest) with
                  | .ok vs => .ok (.list vs)
                  | .exn e => .exn e
            | other => .exn (.typeError
                ("Cannot index into non-container (" ++ typeName other ++ ") at " ++ key))
      | _ => .exn (.attrError ("Attribute or key " ++ key ++ " not found"))

/-- `GetField`: value retrieval at a field path, throwing and fail-fast. -/
def GetField (obj : Value) (fieldPath : String) : PyResult Value :=
  let parts := pySplit fieldPath '.'
  getAux parts.length obj parts

/-!  ## SetField (utils/fields/access.py)  -/

/-- Python `old + new` on record values; `none` is the unsupported case. -/
def pyAdd : Value → Value → Option Value
  | .int a, .int b => some (.int (a + b))
  | .str a, .str b => some (.str (a ++ b))
  | .list a, .list b => some (.list (a ++ b))
  | _, _ => none

/-- Python `old - new` on record values; `none` is the unsupported case. -/
def pySub : Value → Value → Option Value
  | .int a, .int b => some (.int (a - b))
  | _, _ => none

/-- `update_value`: combine the old value with the new one under a write mode. -/
def update_value (old new : Value) (mode : String) : PyResult Value :=
  if mode = "=" then .ok new
  else if mode = "+" then
    match pyAdd old new with
    | some v => .ok v
    | none => .exn (.typeError ("Error applying + to the operands"))
  else if mode = "-" then
    match pySub old new with
    | some v => .ok v
    | none => .exn (.typeError ("Error applying - to the operands"))
  else .exn (.valueError ("Unknown mode: " ++ mode))

/-- `do_assign` on a list container at a checked index (its rest argument is
always empty at every call site of the source). -/
def doAssignList (nv : Value) (mode : String) (l : List Value) (i : Int) :
    PyResult (List Value) :=
  match pyListGet l i with
  | none => .exn (.indexError "list index out of range")
  | some old =>
    match update_value old nv mode with
    | .ok v2 => .ok (pyListSet l i v2)
    | .exn e => .exn e

/-- `do_assign` on a dict container: when the old value is None the new value
is assigned directly, without consulting `update_value`. -/
def doAssignDict (nv : Value) (mode : String) (d : List (String × Value)) (k : String) :
    PyResult (List (String × Value)) :=
  let old := (dictGet d k).getD .null
  if isNull old then .ok (dictSet d k nv)
  else
    match update_value old nv mode with
    | .ok v2 => .ok (dictSet d k v2)
    | .exn e => .exn e

/-- Recursive core of `SetField` over the dot-split segments, returning the
updated node.  As in `GetField`, only the first index group of a segment is
applied, because the source returns inside its loop over groups. -/
def setAux (nv : Value) (mode : String) : Nat → Value → List String → PyResult Value
  | _, current, [] => .ok current
  | 0, current, _ :: _ => .ok current
  | f + 1, current, part :: rest =>
    match Parse part with
    | .exn e => .exn e
    | .ok (key, indexGroups) =>
      match current with
      | .dict d =>
        match dictGet d key with
        | none => .exn (.keyError ("Key " ++ key ++ " not found in dict"))
        | some target =>
          match indexGroups with
          | [] =>
            if rest.isEmpty then
              -- terminal assignment through the current dict, with the
              -- `old is not None` guard of the source
              if isNull target then .ok (.dict (dictSet d key nv))
              else
                match update_value target nv mode with
                | .ok v2 => .ok (.dict (dictSet d key v2))
                | .exn e => .exn e
            else
              match setAux nv mode f target rest with
              | .ok t2 => .ok (.dict (dictSet d key t2))
              | .exn e => .exn e
          | g :: _ =>
            match target with
            | .list l =>
              if g = ["*"] then
                if rest.isEmpty then
                  match l.mapM (fun old => update_value old nv mode) with
                  | .ok l2 => .ok (.dict (dictSet d key (.list l2)))
                  | .exn e => .exn e
                else
                  match l.mapM (fun item => setAux nv mode f item rest) with
                  | .ok l2 => .ok (.dict (dictSet d key (.list l2)))
                  | .exn e => .exn e
              else
                match g.foldlM (fun st idx =>
                    match pyInt idx with
                    | none => PyResult.exn (.valueError
                        ("invalid literal for int() with base 10: " ++ idx))
                    | some i =>
                      if rest.isEmpty then doAssignList nv mode st i
                      else
                        match pyListGet st i with
                        | none => PyResult.exn (.indexError "list index out of range")
                        | some item =>
                          match setAux nv mode f item rest with
                          | .ok v2 => PyResult.ok (pyListSet st i v2)
                          | .exn e => PyResult.exn e) l with
                | .ok l2 => .ok (.dict (dictSet d key (.list l2)))
                | .exn e => .exn e
            | .dict d2 =>
              if g = ["*"] then
                match (dictKeys d2).foldlM (fun st k =>
                    if rest.isEmpty then doAssignDict nv mode st k
                    else
                      match dictGet st k with
                      | none => PyResult.exn (.keyError k)
                      | some v =>
                        match setAux nv mode f v rest with
                        | .ok v2 => PyResult.ok (dictSet st k v2)
                        | .exn e => PyResult.exn e) d2 with
                | .ok d3 => .ok (.dict (dictSet d key (.dict d3)))
                | .exn e => .exn e
              else
                match g.foldlM (fun st k =>
                    if ¬ dictHas st k then
                      PyResult.exn (.keyError ("Key [" ++ k ++ "] not found in dict"))
                    else if rest.isEmpty then doAssignDict nv mode st k
                    else
                      match dictGet st k with
                      | none => PyResult.exn (.keyError k)
                      | some v =>
                        match setAux nv mode f v rest with
                        | .ok v2 => PyResult.ok (dictSet st k v2)
                        | .exn e => PyResult.exn e) d2 with
                | .ok d3 => .ok (.dict (dictSet d key (.dict d3)))
                | .exn e => .exn e
            | other => .exn (.typeError
                ("Cannot index into non-container (" ++ typeName other ++ ") at " ++ key))
      | _ => .exn (.attrError ("Attribute or key " ++ key ++ " not found"))

/-- `SetField`: in-place write at a field path, modelled as returning the
updated record; an exception yields no record. -/
def SetField (obj : Value) (fieldPath : String) (newvalue : Value) (mode : String) :
    PyResult Value :=
  let parts := pySplit fieldPath '.'
  setAux newvalue mode parts.length obj parts

/-!  ## FlattenFields and Dict (utils/fields/miscellaneous.py)  -/

mutual

/-- `FlattenFields`: every dotted label reachable through nested dicts,
including every intermediate prefix label. -/
def FlattenFields : Value → String → Finset String
  | .dict es, pre => flattenEntries es pre
  | _, _ => ∅

/-- Entry-list worker of `FlattenFields`. -/
def flattenEntries : List (String × Value) → String → Finset String
  | [], _ => ∅
  | (k, v) :: rest, pre =>
      let fullKey := if pre = "" then k else pre ++ "." ++ k
      insert fullKey (FlattenFields v fullKey ∪ flattenEntries rest pre)

end

/-- `Dict`: the public attributes of an entity, i.e. the entries whose key
does not start with an underscore.  An entity is represented by the mapping
of its attributes. -/
def Dict : Value → Value
  | .dict es => .dict (es.filter (fun kv => ¬ startsUnderscore kv.1))
  | v => v

/-!  ## Graphs (utils/graphs.py)  -/

/-- `m[k] = v` on an association list (replace in place, append when absent). -/
def setKey : List (String × Int) → String → Int → List (String × Int)
  | [], key, v => [(key, v)]
  | (k, w) :: rest, key, v =>
      if k = key then (k, v) :: rest else (k, w) :: setKey rest key v

/-- Lookup with a default, as on a `defaultdict(int)`. -/
def getKeyD (m : List (String × Int)) (key : String) (dflt : Int) : Int :=
  (alistGet m key).getD dflt

/-- `graph[parent].append(node)` on a `defaultdict(list)`: the key is created
at the end on first touch. -/
def addChild : List (String × List String) → String → String → List (String × List String)
  | [], parent, node => [(parent, [node])]
  | (k, cs) :: rest, parent, node =>
      if k = parent then (k, cs ++ [node]) :: rest
      else (k, cs) :: addChild rest parent node

/-- The in-degree map of `Toposort`: every node starts at zero, then each
truthy (non-empty) parent entry of a node bumps that node. -/
def buildInDegree (g : List (String × List String)) : List (String × Int) :=
  let init := g.foldl (fun m kv => setKey m kv.1 0) []
  g.foldl (fun m kv =>
    kv.2.foldl (fun m2 p => if p = "" then m2 else setKey m2 kv.1 (getKeyD m2 kv.1 0 + 1)) m)
    init

/-- `BuildReverseGraph`: parent to list of direct children, skipping falsy
(empty) parent names.  `Toposort` builds the same adjacency internally. -/
def BuildReverseGraph (g : List (String × List String)) : List (String × List String) :=
  g.foldl (fun m kv =>
    kv.2.foldl (fun m2 p => if p = "" then m2 else addChild m2 p kv.1) m)
    []

/-- The Kahn queue loop of `Toposort`; the fuel dominates the number of pops. -/
def kahnLoop : Nat → List String → List (String × Int) → List (String × List String) →
    List String → List String
  | 0, _, _, _, sorted => sorted
  | _, [], _, _, sorted => sorted
  | f + 1, current :: queue, indeg, children, sorted =>
    let cs := (alistGet children current).getD []
    let st := cs.foldl
      (fun (st : List (String × Int) × List String) child =>
        let nd := getKeyD st.1 child 0 - 1
        (setKey st.1 child nd, if nd = 0 then st.2 ++ [child] else st.2))
      (indeg, queue)
    kahnLoop f st.2 st.1 children (sorted ++ [current])

/-- `Toposort`: Kahn ordering of a `{node : parents}` graph; when the queue
drains before every node is emitted the cycle error is raised. -/
def Toposort (g : List (String × List String)) : PyResult (List String) :=
  let indeg := buildInDegree g
  let children := BuildReverseGraph g
  let queue := (indeg.filter (fun kv => kv.2 = 0)).map Prod.fst
  let fuel := g.length + g.foldl (fun n kv => n + kv.2.length) 0 + 1
  let sorted := kahnLoop fuel queue indeg children []
  if sorted.length = indeg.length then .ok sorted
  else .exn (.valueError "Cycle detected in dependencies!")

/-- The BFS loop of `GetAllDescendants`; the fuel dominates the pops. -/
def bfsLoop : Nat → List String → Finset String → List (String × List String) → Finset String
  | 0, _, descendants, _ => descendants
  | _, [], descendants, _ => descendants
  | f + 1, current :: queue, descendants, rg =>
    let cs := (alistGet rg current).getD []
    let st := cs.foldl
      (fun (st : Finset String × List String) child =>
        if child ∈ st.1 then st else (insert child st.1, st.2 ++ [child]))
      (descendants, queue)
    bfsLoop f st.2 st.1 rg

/-- `GetAllDescendants`: breadth-first closure of the reverse (child) graph;
the start node itself is not included. -/
def GetAllDescendants (start : String) (rg : List (String × List String)) : Finset String :=
  let fuel := 1 + rg.foldl (fun n kv => n + kv.2.length) 0
  bfsLoop fuel [start] ∅ rg

/-!  ## Schema validator (entities/validator.py)

The two result enumerations are imported by validator.py from
entities/entity.py, which in the sources at hand only defines
`ValidationCode = {Valid, Invalid}`; the schema-level enumeration is
modelled from the spec with the two constructor names the validator uses. -/

/-- Modelled from the spec: per-schema evaluation outcome, named as used by
`ValidateSchema` (Implemented / NotImplemented). -/
inductive SchemaValidationCode where
  | SchemaImplemented
  | SchemaNotImplemented
deriving DecidableEq, Repr

/-- Per-entity validation outcome, as in `ValidationCode` of entities/entity.py. -/
inductive EntityValidationCode where
  | Valid
  | Invalid
deriving DecidableEq, Repr

/-- The `Required` attribute of a schema node: a boolean, or a list of schema
names that conditionally require it. -/
inductive RequiredSpec where
  | bool : Bool → RequiredSpec
  | names : List String → RequiredSpec
deriving DecidableEq, Repr

/-- One schema definition as the validator reads it from its attributes. -/
structure SchemaNode where
  Mandatory : List String
  Optional : List String
  AnyOf : List String
  Extends : List String
  Required : RequiredSpec

/-- Python truthiness of the pair returned by `HasField`: a two-element tuple
is always truthy, whatever the two sets contain.  This mirrors the calls
`if HasField(entity, field):` in validator.py, which test the returned pair
itself rather than its error component. -/
def pyTruthyPair (_res : Finset String × Finset String) : Bool :=
  true

/-- Loop of `ValidateMandatoryFields`: a falsy check returns None (killing the
schema), a truthy check records the field path. -/
def mandLoop (entity : Value) : List String → Finset String → PyResult (Option (Finset String))
  | [], acc => .ok (some acc)
  | field :: fields, acc =>
    match HasField entity field with
    | .exn e => .exn e
    | .ok res =>
      if pyTruthyPair res then mandLoop entity fields (insert field acc)
      else .ok none

/-- `ValidateMandatoryFields`. -/
def ValidateMandatoryFields (node : SchemaNode) (entity : Value) :
    PyResult (Option (Finset String)) :=
  mandLoop entity node.Mandatory ∅

/-- Loop of `ValidateOptionalFields`: record each field whose check is truthy. -/
def optLoop (entity : Value) : List String → Finset String → PyResult (Finset String)
  | [], acc => .ok acc
  | field :: fields, acc =>
    match HasField entity field with
    | .exn e => .exn e
    | .ok res =>
      optLoop entity fields (if pyTruthyPair res then insert field acc else acc)

/-- `ValidateOptionalFields`. -/
def ValidateOptionalFields (node : SchemaNode) (entity : Value) : PyResult (Finset String) :=
  optLoop entity node.Optional ∅

/-- Loop of `ValidateAnyOfFields`: record each field whose check is truthy. -/
def anyLoop (entity : Value) : List String → Finset String → PyResult (Finset String)
  | [], acc => .ok acc
  | field :: fields, acc =>
    match HasField entity field with
    | .exn e => .exn e
    | .ok res =>
      anyLoop entity fields (if pyTruthyPair res then insert field acc else acc)

/-- `ValidateAnyOfFields`: None when no AnyOf field was recorded, which in
particular is the outcome whenever the AnyOf list is empty. -/
def ValidateAnyOfFields (node : SchemaNode) (entity : Value) :
    PyResult (Option (Finset String)) :=
  match anyLoop entity node.AnyOf ∅ with
  | .exn e => .exn e
  | .ok acc => if acc.card = 0 then .ok none else .ok (some acc)

/-- `ValidateSchema`: NotImplemented when the Mandatory or AnyOf evaluation
returns None, otherwise Implemented with the union of the recorded fields. -/
def ValidateSchema (node : SchemaNode) (entity : Value) :
    PyResult (SchemaValidationCode × Finset String) :=
  match ValidateMandatoryFields node entity with
  | .exn e => .exn e
  | .ok mand =>
    match ValidateAnyOfFields node entity with
    | .exn e => .exn e
    | .ok anyOf =>
      match mand, anyOf with
      | some mf, some af =>
        match ValidateOptionalFields node entity with
        | .exn e => .exn e
        | .ok opt => .ok (.SchemaImplemented, (mf ∪ opt) ∪ af)
      | _, _ => .ok (.SchemaNotImplemented, ∅)

/-- Effective requiredness of a node: a boolean is used directly, a list of
names means required iff any named schema is already implemented. -/
def resolveRequired (req : RequiredSpec) (implementedSchemas : Finset String) : Bool :=
  match req with
  | .bool b => b
  | .names ns => ns.any (fun n => decide (n ∈ implementedSchemas))

/-- The running state of the `Validate` pass. -/
structure VState where
  Status : EntityValidationCode
  DefinedFields : Finset String
  ImplementedSchemas : Finset String
  DroppedSchemas : Finset String
deriving DecidableEq

/-- One iteration of the `for schema in Schemas` loop of `Validate`. -/
def validateStep (registry : List (String × SchemaNode))
    (rev : List (String × List String)) (entity : Value)
    (st : VState) (schema : String) : PyResult VState :=
  if schema ∈ st.DroppedSchemas then .ok st
  else
    match alistGet registry schema with
    | none => .exn (.keyError schema)
    | some node =>
      let required := resolveRequired node.Required st.ImplementedSchemas
      match ValidateSchema node entity with
      | .exn e => .exn e
      | .ok (code, validatedFields) =>
        if code = .SchemaImplemented then
          .ok { st with
                DefinedFields := st.DefinedFields ∪ validatedFields,
                ImplementedSchemas := insert schema st.ImplementedSchemas }
        else if ¬ required then
          .ok { st with DroppedSchemas := st.DroppedSchemas ∪ GetAllDescendants schema rev }
        else
          .ok { st with Status := .Invalid }

/-- The toposorted pass of `Validate`, exposing its loop state (in particular
`DroppedSchemas`, a local of the source function). -/
def ValidateState (registry : List (String × SchemaNode)) (entity : Value) :
    PyResult VState :=
  let graph := registry.map (fun kv => (kv.1, kv.2.Extends))
  match Toposort graph with
  | .exn e => .exn e
  | .ok schemas =>
    let rev := BuildReverseGraph graph
    schemas.foldlM (validateStep registry rev entity) ⟨.Valid, ∅, ∅, ∅⟩

/-- `Validate`: the returned quadruple (Status, DefinedFields,
UndefinedFields, ImplementedSchemas). -/
def Validate (registry : List (String × SchemaNode)) (entity : Value) :
    PyResult (EntityValidationCode × Finset String × Finset String × Finset String) :=
  match ValidateState registry entity with
  | .exn e => .exn e
  | .ok st =>
    .ok (st.Status, st.DefinedFields,
         FlattenFields (Dict entity) "" \ st.DefinedFields, st.ImplementedSchemas)

/-!  ## Claim inputs  -/

/-- The record of the C1 scenario: an entity whose public attributes are
`Stats: (Strength: 5)`. -/
def c1Record : Value := .dict [("Stats", .dict [("Strength", .int 5)])]

/-- The schema node `base` of the C1 scenario; the undeclared Optional and
AnyOf lists are modelled as empty lists. -/
def c1Base : SchemaNode := ⟨["Stats.Strength"], [], [], [], .bool true⟩

/-- A schema node with a missing mandatory field and a non-empty AnyOf list,
against the empty record (claim C2). -/
def c2Node : SchemaNode := ⟨["x"], [], ["y"], [], .bool true⟩

/-- A record whose node `m` is a mapping with exactly the keys A and B
(claim C4). -/
def c4Record : Value := .dict [("m", .dict [("A", .int 1), ("B", .int 2)])]

/-- The single diagnostic the subset check of `handle_dict_indices` emits for
the group `[A|C]` against keys `A, B` (claim C4). -/
def c4Msg : String := "Expected dict keys [A, C] at m, but found [A, B]"

/-- A schema node whose Mandatory list holds a syntactically invalid path and
whose AnyOf list is empty (claim C10). -/
def c10Node : SchemaNode := ⟨["["], [], [], [], .bool true⟩

/-- True when `Parse` accepts the whole segment as a key with no index
groups; such segments are the dot-only paths of the round-trip claim. -/
def parsesPlain (s : String) : Bool :=
  match Parse s with
  | .ok (k, []) => k = s
  | _ => false

/-!  ## Claim theorems  -/

/-- C1 counterexample: on the scenario record and registry, `Validate` does
not return (Valid, defined = Stats.Strength, undefined = empty,
implemented = base) as the claim states. -/
theorem C1_claim_counterexample :
    Validate [("base", c1Base)] c1Record ≠
      .ok (.Valid, {"Stats.Strength"}, ∅, {"base"}) := by decide

/-- C1 amended: on the scenario record and registry, `Validate` returns
Status = Invalid, DefinedFields = empty, UndefinedFields = the two flattened
labels Stats and Stats.Strength, ImplementedSchemas = empty: the empty AnyOf
list makes `base` NotImplemented, `base` is required, and flattening also
produces the prefix label Stats. -/
theorem C1_scenario_amended :
    Validate [("base", c1Base)] c1Record =
      .ok (.Invalid, ∅, {"Stats", "Stats.Strength"}, ∅) := by decide

/-- C2: on the empty record, the schema node with Mandatory = [x] and
AnyOf = [y] is classified Implemented with validated fields x and y, even
though `HasField` reports the missing-key error for x.  The truthiness test
`if HasField(entity, field):` in `ValidateMandatoryFields` always passes
because `HasField` returns a pair, so a node is never NotImplemented because
of a missing Mandatory path, contradicting the claim. -/
theorem C2_mandatory_check_bypassed :
    ValidateSchema c2Node (.dict []) = .ok (.SchemaImplemented, {"x", "y"}) ∧
    HasField (.dict []) "x" =
      .ok (∅, {"Missing key x in dict at [root]. Full path attempted: x"}) := by
  decide

/-- C3 counterexample: after writing 5 at `list[0]` in assign mode, reading
`list[0]` back yields the one-element sequence [5], not the value 5: a path
ending in a single literal bracket index does not round trip as claimed. -/
theorem C3_roundtrip_counterexample :
    SetField (.dict [("list", .list [.int 0])]) "list[0]" (.int 5) "=" =
      .ok (.dict [("list", .list [.int 5])]) ∧
    GetField (.dict [("list", .list [.int 5])]) "list[0]" = .ok (.list [.int 5]) ∧
    Value.list [.int 5] ≠ Value.int 5 := by
  refine ⟨rfl, rfl, ?_⟩
  intro h
  cases h

/-- C4 counterexample: requesting the group `[A|C]` at a mapping with keys
A and B yields exactly the aggregate subset error, and the found-labels set
is only the base label m: no label `m.A` is recorded for the present
selector, contradicting the claim that A still becomes its own branch. -/
theorem C4_claim_counterexample :
    HasField c4Record "m[A|C]" = .ok ({"m"}, {c4Msg}) ∧
    "m.A" ∉ ({"m"} : Finset String) := by decide

/-- C4 amended: for every pair of values stored under A and B, `Exists` on
the group `[A|C]` reports exactly one error, which lists the requested
selector group (naming C) together with the present keys, and the
found-labels set holds only the base label m: when any selector of the
group is missing, the present selectors do not become branches. -/
theorem C4_group_diagnostics (vA vB : Value) :
    HasField (.dict [("m", .dict [("A", vA), ("B", vB)])]) "m[A|C]" =
      .ok ({"m"}, {c4Msg}) ∧
    ({c4Msg} : Finset String).card = 1 := by
  exact ⟨rfl, rfl⟩

/-- C5: `Exists` is not total: on the syntactically invalid path `[0]`
(a segment that does not begin with an identifier) `HasField` propagates the
ValueError of `Parse` instead of converting it into a diagnostic entry,
contradicting both the claim and the docstring of the source. -/
theorem C5_hasfield_raises :
    HasField (.dict []) "[0]" = .exn (.valueError "Invalid field syntax: [0]") := by
  decide

/-- C9 counterexample: with the unrecognized mode `!`, writing 5 at key `a`
whose old value is None succeeds and updates the record instead of failing
with InvalidModeError: the `old is not None` guard bypasses the mode check. -/
theorem C9_invalid_mode_counterexample :
    SetField (.dict [("a", .null)]) "a" (.int 5) "!" = .ok (.dict [("a", .int 5)]) := by
  rfl

/-- C10 counterexample: a schema node whose AnyOf list is empty but whose
Mandatory list holds the syntactically invalid path `[` makes
`ValidateSchema` raise the ValueError of `Parse` instead of classifying the
node NotImplemented, so the claim does not hold for every schema node. -/
theorem C10_claim_counterexample :
    ValidateSchema c10Node (.dict []) = .exn (.valueError "Invalid field syntax: [") ∧
    ValidateSchema c10Node (.dict []) ≠ .ok (.SchemaNotImplemented, ∅) := by decide

/-- A segment accepted by `parsesPlain` parses to itself with no index groups. -/
theorem parsesPlain_spec {s : String} (h : parsesPlain s = true) :
    Parse s = .ok (s, []) := by
  unfold parsesPlain at h
  cases hp : Parse s with
  | ok p =>
    obtain ⟨k, gs⟩ := p
    rw [hp] at h
    cases gs with
    | nil =>
      have hks : k = s := by simpa using h
      subst hks
      simp_all
    | cons g rest => simp at h
  | exn e => rw [hp] at h; simp at h

/-- When every remaining Mandatory check runs without a parse error, the
mandatory loop reaches the end of its list: the truthiness test on the pair
returned by `HasField` never fails. -/
theorem mandLoop_ok (r : Value) :
    ∀ (fs : List String) (acc : Finset String),
      (∀ f ∈ fs, ∃ res, HasField r f = .ok res) →
      ∃ out, mandLoop r fs acc = .ok (some out) := by
  intro fs
  induction fs with
  | nil => intro acc _; exact ⟨acc, rfl⟩
  | cons f rest ih =>
    intro acc h
    obtain ⟨res, hres⟩ := h f (by simp)
    obtain ⟨out, hout⟩ := ih (insert f acc) (fun g hg => h g (by simp [hg]))
    refine ⟨out, ?_⟩
    simp only [mandLoop, hres]
    simpa [pyTruthyPair] using hout

/-- C10 amended: for every record and every schema node whose AnyOf list is
empty and whose Mandatory checks run without a path-syntax error,
`ValidateSchema` classifies the node NotImplemented with an empty
validated-field set, regardless of whether the Mandatory paths exist in the
record. -/
theorem C10_empty_anyof_not_implemented (n : SchemaNode) (r : Value)
    (ha : n.AnyOf = [])
    (hm : ∀ f ∈ n.Mandatory, ∃ res, HasField r f = .ok res) :
    ValidateSchema n r = .ok (.SchemaNotImplemented, ∅) := by
  obtain ⟨out, hout⟩ := mandLoop_ok r n.Mandatory ∅ hm
  unfold ValidateSchema ValidateMandatoryFields ValidateAnyOfFields
  rw [hout, ha]
  simp [anyLoop]

/-- C10 witness: a node whose only Mandatory path exists in the record and
whose AnyOf list is empty is still NotImplemented. -/
theorem C10_empty_anyof_witness :
    ValidateSchema ⟨["w"], [], [], [], .bool false⟩ (.dict [("w", .int 1)]) =
      .ok (.SchemaNotImplemented, ∅) :=
  C10_empty_anyof_not_implemented _ _ rfl (by
    intro f hf
    simp only [List.mem_singleton] at hf
    subst hf
    exact ⟨_, rfl⟩)

/-- C9 amended: an unrecognized write mode makes `update_value` fail with the
unknown-mode ValueError for every pair of operands, and a terminal write at a
mapping key fails this way, leaving no updated record, whenever the old value
is not None; when the old value is None, the new value is assigned directly
and no mode validation happens. -/
theorem C9_invalid_mode_amended (m : String)
    (hm1 : m ≠ "=") (hm2 : m ≠ "+") (hm3 : m ≠ "-") :
    (∀ old new : Value,
        update_value old new m = .exn (.valueError ("Unknown mode: " ++ m))) ∧
    (∀ (d : List (String × Value)) (k : String) (v V : Value),
        parsesPlain k = true → pySplit k '.' = [k] →
        dictGet d k = some v → isNull v = false →
        SetField (.dict d) k V m = .exn (.valueError ("Unknown mode: " ++ m))) ∧
    (∀ (d : List (String × Value)) (k : String) (V : Value),
        parsesPlain k = true → pySplit k '.' = [k] →
        dictGet d k = some .null →
        SetField (.dict d) k V m = .ok (.dict (dictSet d k V))) := by
  have hupd : ∀ old new : Value,
      update_value old new m = .exn (.valueError ("Unknown mode: " ++ m)) := by
    intro old new
    simp [update_value, hm1, hm2, hm3]
  refine ⟨hupd, ?_, ?_⟩
  · intro d k v V hp hs hd hv
    have hparse := parsesPlain_spec hp
    unfold SetField
    rw [hs]
    simp only [List.length_cons, List.length_nil, setAux, hparse, hd]
    simp [hv, hupd]
  · intro d k V hp hs hd
    have hparse := parsesPlain_spec hp
    unfold SetField
    rw [hs]
    simp only [List.length_cons, List.length_nil, setAux, hparse, hd]
    simp [isNull]

/-- C9 witness: mode `!` on an existing non-None value fails with the
unknown-mode error. -/
theorem C9_invalid_mode_witness :
    SetField (.dict [("a", .int 1)]) "a" (.int 2) "!" =
      .exn (.valueError "Unknown mode: !") :=
  (C9_invalid_mode_amended "!" (by decide) (by decide) (by decide)).2.1
    [("a", .int 1)] "a" (.int 1) (.int 2) (by decide) (by decide) rfl rfl

/-- C8: the two-node mutual-extends graph makes `Toposort` raise the cycle
error and yield no order, and in general whenever `Toposort` returns an
order it contains every node of the in-degree map: a drained queue with
nodes remaining never returns a prefix. -/
theorem C8_cycle_detection :
    Toposort [("X", ["Y"]), ("Y", ["X"])] =
      .exn (.valueError "Cycle detected in dependencies!") ∧
    ∀ (g : List (String × List String)) (order : List String),
      Toposort g = .ok order → order.length = (buildInDegree g).length := by
  constructor
  · decide
  · intro g order h
    unfold Toposort at h
    simp only [] at h
    split at h
    · next hlen =>
        cases h
        exact hlen
    · cases h

/-- C8 witness: on a one-node acyclic graph the returned order covers the
whole in-degree map. -/
theorem C8_cycle_detection_witness :
    (["A"] : List String).length = (buildInDegree [("A", [])]).length :=
  C8_cycle_detection.2 [("A", [])] ["A"] (by decide)

/-- Reduction of the bind of `PyResult` on a successful computation. -/
theorem pyBind_ok (a : α) (f : α → PyResult β) : (PyResult.ok a >>= f) = f a := rfl

/-- Concrete dependent schema used in the C7 scenario: it extends trait and
declares no fields, so it is NotImplemented on every record. -/
def depNode : SchemaNode := ⟨[], [], [], ["trait"], .bool false⟩

/-- C6 confirmed: with child extending base in a two-schema registry, base
not required and NotImplemented on the record, `Validate` drops child
(regardless of the fields child declares or the record contents, so in
particular even when all of the mandatory fields of child are present), and
child never enters ImplementedSchemas. -/
theorem C6_cascade_drop (R : Value) (b c : SchemaNode)
    (hbe : b.Extends = []) (hce : c.Extends = ["base"])
    (hbr : b.Required = .bool false)
    (hbs : ValidateSchema b R = .ok (.SchemaNotImplemented, ∅)) :
    ∃ st, ValidateState [("base", b), ("child", c)] R = .ok st ∧
      "child" ∈ st.DroppedSchemas ∧ "child" ∉ st.ImplementedSchemas := by
  refine ⟨⟨.Valid, ∅, ∅, {"child"}⟩, ?_, by decide, by decide⟩
  have h1 : validateStep [("base", b), ("child", c)] [("base", ["child"])] R
      ⟨.Valid, ∅, ∅, ∅⟩ "base" = .ok ⟨.Valid, ∅, ∅, {"child"}⟩ := by
    unfold validateStep
    rw [if_neg (Finset.not_mem_empty "base")]
    simp only [show alistGet [("base", b), ("child", c)] "base" = some b from rfl]
    rw [hbr, hbs]
    simp only [resolveRequired]
    norm_num
    rw [show GetAllDescendants "base" [("base", ["child"])] = {"child"} from by decide]
    simp
  have h2 : validateStep [("base", b), ("child", c)] [("base", ["child"])] R
      ⟨.Valid, ∅, ∅, {"child"}⟩ "child" = .ok ⟨.Valid, ∅, ∅, {"child"}⟩ := by
    unfold validateStep
    rw [if_pos (by decide : "child" ∈ ({"child"} : Finset String))]
  unfold ValidateState
  simp only [List.map_cons, List.map_nil, hbe, hce]
  rw [show Toposort [("base", []), ("child", ["base"])] = .ok ["base", "child"] from by decide,
      show BuildReverseGraph [("base", []), ("child", ["base"])] = [("base", ["child"])] from
        by decide]
  simp only [List.foldlM, pyBind_ok, h1, h2]
  rfl

/-- C6 witness: a concrete two-schema registry in which base has an empty
AnyOf list (hence NotImplemented) and the record holds the one mandatory
field of child. -/
theorem C6_cascade_drop_witness :
    ∃ st, ValidateState
        [("base", ⟨["m"], [], [], [], .bool false⟩),
         ("child", ⟨["Stats.Agility"], [], ["Stats.Agility"], ["base"], .bool false⟩)]
        (.dict [("Stats", .dict [("Agility", .int 7)])]) = .ok st ∧
      "child" ∈ st.DroppedSchemas ∧ "child" ∉ st.ImplementedSchemas :=
  C6_cascade_drop (.dict [("Stats", .dict [("Agility", .int 7)])])
    ⟨["m"], [], [], [], .bool false⟩
    ⟨["Stats.Agility"], [], ["Stats.Agility"], ["base"], .bool false⟩
    rfl rfl rfl (by decide)

/-- C7 confirmed: with Required a list of names, a node is effectively
required iff some named schema is in ImplementedSchemas when the node is
processed; on the three-schema registry (feature, trait with
Required = [feature], dep extending trait): when feature is Implemented
earlier in topological order and trait is NotImplemented, the status becomes
Invalid; when feature is NotImplemented, the absence of trait leaves the
status Valid and cascades the descendants of trait (dep is dropped). -/
theorem C7_conditional_requiredness (R : Value) (f t : SchemaNode)
    (hfe : f.Extends = []) (hfr : f.Required = .bool false)
    (hte : t.Extends = []) (htr : t.Required = .names ["feature"]) :
    (∀ (ns : List String) (impl : Finset String),
        resolveRequired (.names ns) impl = true ↔ ∃ n ∈ ns, n ∈ impl) ∧
    (∀ S, ValidateSchema f R = .ok (.SchemaImplemented, S) →
        ValidateSchema t R = .ok (.SchemaNotImplemented, ∅) →
        ∃ st, ValidateState [("feature", f), ("trait", t), ("dep", depNode)] R = .ok st ∧
          st.Status = .Invalid ∧ "feature" ∈ st.ImplementedSchemas) ∧
    (ValidateSchema f R = .ok (.SchemaNotImplemented, ∅) →
        ValidateSchema t R = .ok (.SchemaNotImplemented, ∅) →
        ∃ st, ValidateState [("feature", f), ("trait", t), ("dep", depNode)] R = .ok st ∧
          st.Status = .Valid ∧ "dep" ∈ st.DroppedSchemas ∧
          "trait" ∉ st.ImplementedSchemas) := by
  refine ⟨?_, ?_, ?_⟩
  · intro ns impl
    simp [resolveRequired]
  · intro S hfi hts
    refine ⟨⟨.Invalid, ∅ ∪ S, insert "feature" ∅, ∅ ∪ ∅⟩, ?_, rfl, by simp⟩
    have h1 : validateStep [("feature", f), ("trait", t), ("dep", depNode)]
        [("trait", ["dep"])] R ⟨.Valid, ∅, ∅, ∅⟩ "feature" =
        .ok ⟨.Valid, ∅ ∪ S, insert "feature" ∅, ∅⟩ := by
      unfold validateStep
      rw [if_neg (Finset.not_mem_empty "feature")]
      simp only [show alistGet [("feature", f), ("trait", t), ("dep", depNode)] "feature" =
        some f from rfl]
      rw [hfi]
      simp
    have h2 : validateStep [("feature", f), ("trait", t), ("dep", depNode)]
        [("trait", ["dep"])] R ⟨.Valid, ∅ ∪ S, insert "feature" ∅, ∅⟩ "trait" =
        .ok ⟨.Invalid, ∅ ∪ S, insert "feature" ∅, ∅⟩ := by
      unfold validateStep
      rw [if_neg (Finset.not_mem_empty "trait")]
      simp only [show alistGet [("feature", f), ("trait", t), ("dep", depNode)] "trait" =
        some t from rfl]
      rw [htr, hts]
      simp [resolveRequired]
    have h3 : validateStep [("feature", f), ("trait", t), ("dep", depNode)]
        [("trait", ["dep"])] R ⟨.Invalid, ∅ ∪ S, insert "feature" ∅, ∅⟩ "dep" =
        .ok ⟨.Invalid, ∅ ∪ S, insert "feature" ∅, ∅ ∪ ∅⟩ := by
      unfold validateStep
      rw [if_neg (Finset.not_mem_empty "dep")]
      simp only [show alistGet [("feature", f), ("trait", t), ("dep", depNode)] "dep" =
        some depNode from rfl]
      rw [show ValidateSchema depNode R = .ok (.SchemaNotImplemented, ∅) from rfl]
      rw [show GetAllDescendants "dep" [("trait", ["dep"])] = ∅ from by decide]
      simp [depNode, resolveRequired]
    unfold ValidateState
    simp only [List.map_cons, List.map_nil, hfe, hte,
      show depNode.Extends = ["trait"] from rfl]
    rw [show Toposort [("feature", []), ("trait", []), ("dep", ["trait"])] =
          .ok ["feature", "trait", "dep"] from by decide,
        show BuildReverseGraph [("feature", []), ("trait", []), ("dep", ["trait"])] =
          [("trait", ["dep"])] from by decide]
    simp only [List.foldlM, pyBind_ok, h1, h2, h3]
    rfl
  · intro hfs hts
    refine ⟨⟨.Valid, ∅, ∅, (∅ ∪ ∅) ∪ {"dep"}⟩, ?_, rfl, by decide, by decide⟩
    have h1 : validateStep [("feature", f), ("trait", t), ("dep", depNode)]
        [("trait", ["dep"])] R ⟨.Valid, ∅, ∅, ∅⟩ "feature" =
        .ok ⟨.Valid, ∅, ∅, ∅ ∪ ∅⟩ := by
      unfold validateStep
      rw [if_neg (Finset.not_mem_empty "feature")]
      simp only [show alistGet [("feature", f), ("trait", t), ("dep", depNode)] "feature" =
        some f from rfl]
      rw [hfr, hfs]
      rw [show GetAllDescendants "feature" [("trait", ["dep"])] = ∅ from by decide]
      simp [resolveRequired]
    have h2 : validateStep [("feature", f), ("trait", t), ("dep", depNode)]
        [("trait", ["dep"])] R ⟨.Valid, ∅, ∅, ∅ ∪ ∅⟩ "trait" =
        .ok ⟨.Valid, ∅, ∅, (∅ ∪ ∅) ∪ {"dep"}⟩ := by
      unfold validateStep
      rw [if_neg (by decide : ¬ ("trait" ∈ ((∅ ∪ ∅ : Finset String))))]
      simp only [show alistGet [("feature", f), ("trait", t), ("dep", depNode)] "trait" =
        some t from rfl]
      rw [htr, hts]
      rw [show GetAllDescendants "trait" [("trait", ["dep"])] = {"dep"} from by decide]
      simp [resolveRequired]
    have h3 : validateStep [("feature", f), ("trait", t), ("dep", depNode)]
        [("trait", ["dep"])] R ⟨.Valid, ∅, ∅, (∅ ∪ ∅) ∪ {"dep"}⟩ "dep" =
        .ok ⟨.Valid, ∅, ∅, (∅ ∪ ∅) ∪ {"dep"}⟩ := by
      unfold validateStep
      rw [if_pos (by decide : "dep" ∈ (((∅ ∪ ∅ : Finset String)) ∪ {"dep"}))]
    unfold ValidateState
    simp only [List.map_cons, List.map_nil, hfe, hte,
      show depNode.Extends = ["trait"] from rfl]
    rw [show Toposort [("feature", []), ("trait", []), ("dep", ["trait"])] =
          .ok ["feature", "trait", "dep"] from by decide,
        show BuildReverseGraph [("feature", []), ("trait", []), ("dep", ["trait"])] =
          [("trait", ["dep"])] from by decide]
    simp only [List.foldlM, pyBind_ok, h1, h2, h3]
    rfl

/-- C7 witness: a concrete three-schema registry and record on which feature
is Implemented and the NotImplemented trait is conditionally required, so the
status is Invalid. -/
theorem C7_conditional_requiredness_witness :
    ∃ st, ValidateState
        [("feature", ⟨["F"], [], ["F"], [], .bool false⟩),
         ("trait", ⟨[], [], [], [], .names ["feature"]⟩),
         ("dep", depNode)] (.dict [("F", .int 1)]) = .ok st ∧
      st.Status = .Invalid ∧ "feature" ∈ st.ImplementedSchemas :=
  (C7_conditional_requiredness (.dict [("F", .int 1)])
      ⟨["F"], [], ["F"], [], .bool false⟩ ⟨[], [], [], [], .names ["feature"]⟩
      rfl rfl rfl rfl).2.1 {"F"} (by decide) (by decide)

/-- The piece splitter never returns an empty list of segments. -/
theorem splitCharAux_ne_nil (sep : Char) (cs : List Char) :
    ∀ acc, splitCharAux sep cs acc ≠ [] := by
  induction cs with
  | nil => intro acc; simp [splitCharAux]
  | cons c rest ih =>
    intro acc
    unfold splitCharAux
    by_cases h : c = sep
    · simp [h]
    · simpa [h] using ih (c :: acc)

/-- Splitting a path string yields at least one segment, as in Python. -/
theorem pySplit_ne_nil (s : String) (sep : Char) : pySplit s sep ≠ [] :=
  splitCharAux_ne_nil sep s.toList []

/-- Looking a key up right after assigning it returns the assigned value. -/
theorem dictGet_dictSet_self (d : List (String × Value)) (k : String) (v : Value) :
    dictGet (dictSet d k v) k = some v := by
  induction d with
  | nil => simp [dictGet, dictSet, alistGet]
  | cons kv rest ih =>
    obtain ⟨k1, v1⟩ := kv
    unfold dictSet
    by_cases h : k1 = k
    · simp [h, dictGet, alistGet]
    · simpa [dictGet, alistGet, h] using ih

/-- Round trip of the traversal cores on a path of plain segments (no index
groups): a successful write in assign mode makes the read return the written
value. -/
theorem setAux_getAux_roundtrip (V : Value) :
    ∀ (parts : List String), parts ≠ [] →
      (∀ s ∈ parts, parsesPlain s = true) →
      ∀ (cur cur2 : Value),
        setAux V "=" parts.length cur parts = .ok cur2 →
        getAux parts.length cur2 parts = .ok V := by
  intro parts
  induction parts with
  | nil => intro h; exact absurd rfl h
  | cons s rest ih =>
    intro _ hps cur cur2 hset
    have hparse : Parse s = .ok (s, []) := parsesPlain_spec (hps s (List.mem_cons_self s rest))
    rw [List.length_cons] at hset ⊢
    rw [setAux, hparse] at hset
    cases cur with
    | list l => exact PyResult.noConfusion hset
    | int n => exact PyResult.noConfusion hset
    | str st => exact PyResult.noConfusion hset
    | null => exact PyResult.noConfusion hset
    | dict d =>
      dsimp only at hset
      cases hd : dictGet d s with
      | none => rw [hd] at hset; exact PyResult.noConfusion hset
      | some target =>
        rw [hd] at hset
        dsimp only at hset
        cases rest with
        | nil =>
          have hset2 : (if isNull target = true then
                PyResult.ok (Value.dict (dictSet d s V))
              else PyResult.ok (Value.dict (dictSet d s V))) = PyResult.ok cur2 := hset
          rw [ite_self] at hset2
          cases hset2
          rw [getAux, hparse]
          dsimp only
          rw [dictGet_dictSet_self]
          rfl
        | cons r2 rs =>
          have hset2 : (match setAux V "=" (r2 :: rs).length target (r2 :: rs) with
              | PyResult.ok t2 => PyResult.ok (Value.dict (dictSet d s t2))
              | PyResult.exn e => PyResult.exn e) = PyResult.ok cur2 := hset
          cases hrec : setAux V "=" (r2 :: rs).length target (r2 :: rs) with
          | exn e => rw [hrec] at hset2; exact PyResult.noConfusion hset2
          | ok t2 =>
            rw [hrec] at hset2
            dsimp only at hset2
            cases hset2
            rw [getAux, hparse]
            dsimp only
            rw [dictGet_dictSet_self]
            exact ih (by simp) (fun x hx => hps x (List.mem_cons_of_mem s hx)) target t2 hrec

/-- C3 amended: the round trip Read-after-Write holds for every path all of
whose segments are plain keys with no bracket index groups; for a path ending
in a single literal bracket index such as `list[0]`, a successful write of V
is read back as the one-element sequence [V], not as V. -/
theorem C3_roundtrip_amended :
    (∀ (R R2 V : Value) (P : String),
        (∀ s ∈ pySplit P '.', parsesPlain s = true) →
        SetField R P V "=" = .ok R2 → GetField R2 P = .ok V) ∧
    (∀ (x : Value) (xs : List Value) (V : Value),
        SetField (.dict [("list", .list (x :: xs))]) "list[0]" V "=" =
          .ok (.dict [("list", .list (V :: xs))]) ∧
        GetField (.dict [("list", .list (V :: xs))]) "list[0]" = .ok (.list [V])) := by
  constructor
  · intro R R2 V P hsegs hset
    exact setAux_getAux_roundtrip V (pySplit P '.') (pySplit_ne_nil P '.') hsegs R R2 hset
  · intro x xs V
    exact ⟨rfl, rfl⟩

/-- C3 witness: writing 7 at the plain path a and reading it back. -/
theorem C3_roundtrip_witness :
    GetField (.dict [("a", .int 7)]) "a" = .ok (.int 7) :=
  C3_roundtrip_amended.1 (.dict [("a", .int 1)]) (.dict [("a", .int 7)]) (.int 7) "a"
    (by decide) (by rfl)

end CC
